import Mathlib

/-!
# Verification of maddy's check action policy and DNS identity validators

Shallow embedding of `check/fail_action.go` (FailAction, ParseActionDirective,
ParseRejectDirective, parseEnhancedCode) and `check/dns/dns.go`
(requireMatchingRDNS, requireMXRecord, requireMatchingEHLO), with theorems
settling the specification claims about them.

Go integers are modelled as `Int` with Go's truncated division (`Int.tdiv`);
Go strings as Lean `String`, with the handful of `strings`/`strconv`
operations the source uses re-implemented over the character list so that
they evaluate by kernel reduction.
-/

set_option maxRecDepth 4000

namespace Maddy

/-! ## Character-level models of the Go `strings`/`strconv` operations -/

/-- `strings.Split(s, sep)` for a one-character separator, on char lists.
`Split("", sep)` yields one empty part, as in Go. -/
def splitOnChar (sep : Char) : List Char → List (List Char)
  | [] => [[]]
  | c :: rest =>
    match splitOnChar sep rest with
    | [] => [[]]
    | g :: gs => if c = sep then [] :: g :: gs else (c :: g) :: gs

/-- `strings.Split(s, sep)` for a one-character separator. -/
def goSplit (s : String) (sep : Char) : List String :=
  (splitOnChar sep s.data).map (fun l => ⟨l⟩)

/-- All characters are ASCII decimal digits. -/
def allDigits : List Char → Bool
  | [] => true
  | c :: cs => c.isDigit && allDigits cs

/-- Decimal value of a digit list (accumulator form). -/
def digitsVal : List Char → Nat → Nat
  | [], acc => acc
  | c :: cs, acc => digitsVal cs (10 * acc + (c.toNat - 48))

/-- `strconv.Atoi`: optional sign followed by at least one digit.
(Range errors for huge literals are not modelled.) -/
def goAtoi (s : String) : Option Int :=
  match s.data with
  | [] => none
  | c :: rest =>
    if c = '-' then
      if !rest.isEmpty && allDigits rest then some (-(digitsVal rest 0 : Int)) else none
    else if c = '+' then
      if !rest.isEmpty && allDigits rest then some ((digitsVal rest 0 : Int)) else none
    else
      if allDigits (c :: rest) then some ((digitsVal (c :: rest) 0 : Int)) else none

/-- First list begins with the second one. -/
def charsBeginWith : List Char → List Char → Bool
  | _, [] => true
  | [], _ :: _ => false
  | c :: cs, p :: ps => c = p && charsBeginWith cs ps

/-- `strings.HasPrefix`. -/
def goStartsWith (s pat : String) : Bool :=
  charsBeginWith s.data pat.data

/-- `strings.HasSuffix`. -/
def goEndsWith (s pat : String) : Bool :=
  charsBeginWith s.data.reverse pat.data.reverse

/-- `strings.TrimSuffix`: removes one occurrence of the suffix, if present. -/
def goTrimSuffix (s pat : String) : String :=
  if goEndsWith s pat then ⟨s.data.take (s.data.length - pat.data.length)⟩ else s

/-- `strings.EqualFold`, modelled as ASCII case-insensitive comparison. -/
def goEqualFold (a b : String) : Bool :=
  a.data.map Char.toLower == b.data.map Char.toLower

/-- Go slicing `s[1 : len(s)-1]`, on characters. -/
def innerLiteral (s : String) : String :=
  ⟨(s.data.drop 1).dropLast⟩

/-! ## Data model: exterrors.EnhancedCode, exterrors.SMTPError, errors -/

/-- `exterrors.EnhancedCode`: the `[3]int` triple `class.subject.detail`. -/
structure EnhancedCode where
  c0 : Int
  c1 : Int
  c2 : Int
deriving DecidableEq, Repr

/-- The non-cause fields of `exterrors.SMTPError` (code, enhanced code,
message, check name, the `Reason` tag, and the `Misc` diagnostics map). -/
structure SMTPErrorData where
  code : Int
  enhancedCode : EnhancedCode
  message : String
  checkName : String
  reasonTag : String
  misc : List (String × String)
deriving DecidableEq, Repr

/-- Go `error` values appearing in this core: an `exterrors.SMTPError`
(its data plus the optional wrapped cause `Err`), an error decorated by
`exterrors.WithFields`, a resolver error (classifiable temporary/permanent,
carrying its `Error()` text), or an `address.Split` parse error. -/
inductive MErr : Type where
  | smtp (data : SMTPErrorData) (err : Option MErr)
  | withFields (fields : List (String × String)) (inner : MErr)
  | dnsErr (temporary : Bool) (text : String)
  | splitErr (text : String)

/-- Numeric code of an SMTPError value, when the error is one. -/
def MErr.smtpCode : MErr → Option Int
  | .smtp d _ => some d.code
  | _ => none

/-- Enhanced code of an SMTPError value, when the error is one. -/
def MErr.smtpEnch : MErr → Option EnhancedCode
  | .smtp d _ => some d.enhancedCode
  | _ => none

/-- Message of an SMTPError value, when the error is one. -/
def MErr.smtpMessage : MErr → Option String
  | .smtp d _ => some d.message
  | _ => none

/-- Check name of an SMTPError value, when the error is one. -/
def MErr.smtpCheckName : MErr → Option String
  | .smtp d _ => some d.checkName
  | _ => none

/-- One step of cause-chain unwrapping (`errors.Unwrap`). -/
def MErr.cause : MErr → Option MErr
  | .smtp _ e => e
  | .withFields _ inner => some inner
  | .dnsErr _ _ => none
  | .splitErr _ => none

/-- `module.CheckResult`. -/
structure CheckResult where
  reason : Option MErr := none
  quarantine : Bool := false
  reject : Bool := false

/-- `check.FailAction`. -/
structure FailAction where
  quarantine : Bool := false
  reject : Bool := false
  reasonOverride : Option SMTPErrorData := none

/-- Numeric code of a verdict's reason, when the reason is an SMTPError. -/
def CheckResult.reasonCode (r : CheckResult) : Option Int :=
  r.reason.bind MErr.smtpCode

/-- Code and enhanced code of a verdict's reason, when it is an SMTPError. -/
def CheckResult.reasonCodeEnch (r : CheckResult) : Option (Int × EnhancedCode) :=
  match r.reason with
  | some (.smtp d _) => some (d.code, d.enhancedCode)
  | _ => none

/-- Check name of a verdict's reason, when it is an SMTPError. -/
def CheckResult.reasonCheckName (r : CheckResult) : Option String :=
  r.reason.bind MErr.smtpCheckName

/-- The distinguishable error results of the directive parsers, one
constructor per distinct `errors.New`/`fmt.Errorf` site (the `atoiError`
and `invalidCodeInt` constructors carry the offending argument the way the
wrapped `strconv` error does). -/
inductive DirectiveError : Type where
  | noArguments
  | invalidAction
  | emptyMessage
  | wrongEnhancedParts
  | atoiError (part : String)
  | badEnhancedFirst
  | invalidCodeInt (arg : String)
  | badCodeFirstDigit
  | argCount
deriving DecidableEq, Repr

/-! ## check/fail_action.go -/

/-- `parseEnhancedCode`: split on ".", demand exactly 3 parts, `Atoi` each. -/
def parseEnhancedCode (s : String) : Except DirectiveError EnhancedCode :=
  match goSplit s '.' with
  | [p0, p1, p2] =>
    match goAtoi p0 with
    | none => .error (.atoiError p0)
    | some n0 =>
      match goAtoi p1 with
      | none => .error (.atoiError p1)
      | some n1 =>
        match goAtoi p2 with
        | none => .error (.atoiError p2)
        | some n2 => .ok ⟨n0, n1, n2⟩
  | _ => .error .wrongEnhancedParts

/-- The SMTPError literal `ParseRejectDirective` returns on success. -/
def rejectDirectiveResult (code : Int) (enchCode : EnhancedCode) (msg : String) :
    SMTPErrorData :=
  ⟨code, enchCode, msg, "", "reject directive used", []⟩

/-- `case 1` of `ParseRejectDirective`'s switch (also reached by
fallthrough): validate `args[0]` as the numeric code. -/
def rejectCaseCode (args : List String) (enchCode : EnhancedCode) (msg : String) :
    Except DirectiveError SMTPErrorData :=
  match goAtoi (args.headD "") with
  | none => .error (.invalidCodeInt (args.headD ""))
  | some code =>
    if Int.tdiv code 100 ≠ 4 ∧ Int.tdiv code 100 ≠ 5 then .error .badCodeFirstDigit
    else .ok (rejectDirectiveResult code enchCode msg)

/-- `case 2` of `ParseRejectDirective`'s switch (also reached by
fallthrough): validate `args[1]` as the enhanced code, then fall through. -/
def rejectCaseEnh (args : List String) (msg : String) :
    Except DirectiveError SMTPErrorData :=
  match parseEnhancedCode (args.getD 1 "") with
  | .error e => .error e
  | .ok enchCode =>
    if enchCode.c0 ≠ 4 ∧ enchCode.c0 ≠ 5 then .error .badEnhancedFirst
    else rejectCaseCode args enchCode msg

/-- `ParseRejectDirective`: switch on the argument count, with Go's
`fallthrough` cascade 3 → 2 → 1 made explicit. -/
def ParseRejectDirective (args : List String) : Except DirectiveError SMTPErrorData :=
  match args.length with
  | 0 => .ok (rejectDirectiveResult 554 ⟨5, 7, 0⟩ "Message rejected due to a local policy")
  | 1 => rejectCaseCode args ⟨5, 7, 0⟩ "Message rejected due to a local policy"
  | 2 => rejectCaseEnh args "Message rejected due to a local policy"
  | 3 =>
    if args.getD 2 "" = "" then .error .emptyMessage
    else rejectCaseEnh args (args.getD 2 "")
  | _ => .error .argCount

/-- `ParseActionDirective`: dispatch on `args[0]`; `reject`/`quarantine`
parse the remaining arguments as a reject directive, `ignore` consumes
nothing further. -/
def ParseActionDirective (args : List String) : Except DirectiveError FailAction :=
  match args with
  | [] => .error .noArguments
  | a0 :: rest =>
    let ovE : Except DirectiveError (Option SMTPErrorData) :=
      if a0 = "reject" ∨ a0 = "quarantine" then
        if rest.length + 1 > 1 then
          match ParseRejectDirective rest with
          | .error e => .error e
          | .ok r => .ok (some r)
        else .ok none
      else if a0 = "ignore" then .ok none
      else .error .invalidAction
    match ovE with
    | .error e => .error e
    | .ok ov =>
      .ok { reject := a0 = "reject", quarantine := a0 = "quarantine", reasonOverride := ov }

/-- `FailAction.Apply`: pass-through when the check passed; otherwise wrap
the reason with the override (if any) and OR in the policy's flags. -/
def FailAction.Apply (cfa : FailAction) (originalRes : CheckResult) : CheckResult :=
  match originalRes.reason with
  | none => originalRes
  | some r =>
    let newReason : MErr :=
      match cfa.reasonOverride with
      | some ov => .smtp ⟨ov.code, ov.enhancedCode, ov.message, "", "", []⟩ (some r)
      | none => r
    { reason := some newReason
      quarantine := cfa.quarantine || originalRes.quarantine
      reject := cfa.reject || originalRes.reject }

/-! ## check/dns/dns.go -/

/-- The lazily-resolved rDNS value behind `MsgMeta.SrcRDNSName.Get()`: either
an actual string, or the non-string sentinel a failed lookup leaves behind
(the `.(string)` type assertion fails on it). -/
inductive RDNSValue : Type where
  | str (s : String)
  | nonString
deriving DecidableEq, Repr

/-- A resolver error. Modelled from the spec: the resolver contract only
requires errors to be classifiable as temporary vs. permanent
(`exterrors.IsTemporary`) and to carry their `Error()` text. -/
structure DNSError where
  temporary : Bool
  text : String
deriving DecidableEq, Repr

/-- An IP address, as its list of numeric components. -/
abbrev IPAddr := List Nat

/-- The resolver handle: `LookupMX` and `LookupIPAddr` as data. -/
structure Resolver where
  lookupMX : String → Except DNSError (List String)
  lookupIPAddr : String → Except DNSError (List IPAddr)

/-- `MsgMeta.SrcAddr`: a TCP address (carrying the source IP) or any
non-TCP/IP address (the `*net.TCPAddr` type assertion fails). -/
inductive SrcAddr : Type where
  | tcp (ip : IPAddr)
  | other

/-- Split a char list at its last at-sign. -/
def splitLastAt : List Char → Option (List Char × List Char)
  | [] => none
  | c :: rest =>
    match splitLastAt rest with
    | some (m, d) => some (c :: m, d)
    | none => if c = '@' then some ([], rest) else none

/-- Modelled from the spec: `address.Split` (package `address`, which is not
among the verified sources) parses an email address into mailbox and domain
at the last at-sign; a string with no at-sign is a parse failure
("Parse domain from the address; parse failure → fail"). -/
def addressSplit (addr : String) : Except String (String × String) :=
  match splitLastAt addr.data with
  | none => .error "malformed address"
  | some (m, d) => .ok (⟨m⟩, ⟨d⟩)

/-- Modelled from the spec: `net.ParseIP` on the bracketed EHLO literal
("parse the literal; malformed literal → fail permanent"), restricted to
IPv4 dotted-quad literals. -/
def parseIP (s : String) : Option IPAddr :=
  let parts := splitOnChar '.' s.data
  if parts.length = 4 ∧ parts.all (fun p => !p.isEmpty && allDigits p && decide (digitsVal p 0 ≤ 255)) then
    some (parts.map (fun p => digitsVal p 0))
  else none

/-- `requireMatchingRDNS`: skip when no lookup was attempted; fail with the
hard-coded code-40 SMTPError when the lazily-resolved value is not a string;
otherwise trim one trailing dot from both names and compare case-insensitively. -/
def requireMatchingRDNS (srcRDNSName : Option RDNSValue) (srcHostname : String) :
    CheckResult :=
  match srcRDNSName with
  | none => {}
  | some .nonString =>
    { reason := some (.smtp
        ⟨40, ⟨4, 7, 25⟩, "DNS lookup failure during policy check",
         "require_matching_rdns", "", []⟩ none) }
  | some (.str rdnsName0) =>
    let srcDomain := goTrimSuffix srcHostname "."
    let rdnsName := goTrimSuffix rdnsName0 "."
    if goEqualFold rdnsName srcDomain then {}
    else
      { reason := some (.smtp
          ⟨550, ⟨5, 7, 25⟩, "rDNS name does not match source hostname",
           "require_matching_rdns", "", []⟩ none) }

/-- `requireMXRecord`: pass on the null return-path, fail on an address
parse error (wrapping it with a check field) or an empty domain, skip
non-TCP sources, then look up MX records and classify the outcome. -/
def requireMXRecord (res : Resolver) (srcAddr : SrcAddr) (mailFrom : String) :
    CheckResult :=
  if mailFrom = "" then {}
  else
    match addressSplit mailFrom with
    | .error e =>
      { reason := some (.withFields [("check", "require_matching_rdns")] (.splitErr e)) }
    | .ok (_, domain) =>
      if domain = "" then
        { reason := some (.smtp
            ⟨501, ⟨5, 1, 8⟩, "No domain part", "require_mx_record", "", []⟩ none) }
      else
        match srcAddr with
        | .other => {}
        | .tcp _ =>
          match res.lookupMX domain with
          | .error err =>
            let code : Int := if err.temporary then 420 else 501
            let enchCode : EnhancedCode := if err.temporary then ⟨4, 7, 27⟩ else ⟨5, 7, 27⟩
            { reason := some (.smtp
                ⟨code, enchCode, "DNS lookup failure during policy check",
                 "require_mx_record", "", [("reason", err.text)]⟩
                (some (.dnsErr err.temporary err.text))) }
          | .ok srcMx =>
            if srcMx.length = 0 then
              { reason := some (.smtp
                  ⟨501, ⟨5, 7, 27⟩, "Domain in MAIL FROM has no MX records",
                   "require_mx_record", "", []⟩ none) }
            else {}

/-- `requireMatchingEHLO`: skip non-TCP sources; compare a bracketed IP
literal against the source IP directly; otherwise resolve the EHLO name and
look for a matching address, classifying resolver errors. -/
def requireMatchingEHLO (res : Resolver) (srcAddr : SrcAddr) (srcHostname : String) :
    CheckResult :=
  match srcAddr with
  | .other => {}
  | .tcp srcIP =>
    let ehlo := srcHostname
    if goStartsWith ehlo "[" && goEndsWith ehlo "]" then
      match parseIP (innerLiteral ehlo) with
      | none =>
        { reason := some (.smtp
            ⟨550, ⟨5, 7, 0⟩, "Malformed IP in EHLO", "require_matching_ehlo", "", []⟩ none) }
      | some ehloIP =>
        if ehloIP ≠ srcIP then
          { reason := some (.smtp
              ⟨550, ⟨5, 7, 0⟩, "IP in EHLO is not the same as actual client IP",
               "require_matching_ehlo", "", []⟩ none) }
        else {}
    else
      match res.lookupIPAddr ehlo with
      | .error err =>
        let code : Int := if err.temporary then 420 else 501
        let enchCode : EnhancedCode := if err.temporary then ⟨4, 7, 27⟩ else ⟨5, 7, 27⟩
        { reason := some (.smtp
            ⟨code, enchCode, "DNS lookup failure during policy check",
             "require_matching_ehlo", "", [("reason", err.text)]⟩
            (some (.dnsErr err.temporary err.text))) }
      | .ok srcIPs =>
        if srcIPs.any (fun ip => srcIP = ip) then {}
        else
          { reason := some (.smtp
              ⟨550, ⟨5, 7, 0⟩, "No matching A/AAA records found for EHLO hostname",
               "require_matching_ehlo", "", []⟩ none) }

/-! ## Auxiliary: first decimal digit -/

/-- Fuel-driven helper for `firstDigit`. -/
def firstDigitFuel : Nat → Nat → Nat
  | 0, n => n
  | fuel + 1, n => if n < 10 then n else firstDigitFuel fuel (n / 10)

/-- The leading decimal digit of a natural number. -/
def firstDigit (n : Nat) : Nat := firstDigitFuel n n

/-! ## Helper lemmas -/

theorem tdiv100_eq_four {n : Int} (h : Int.tdiv n 100 = 4) : 400 ≤ n ∧ n ≤ 499 := by
  have hn : 0 ≤ n := by
    by_contra hneg
    push_neg at hneg
    have h2 : 0 ≤ Int.tdiv (-n) 100 := Int.tdiv_nonneg (by omega) (by omega)
    rw [Int.neg_tdiv] at h2
    omega
  rw [Int.tdiv_eq_ediv hn (by omega)] at h
  omega

theorem tdiv100_eq_five {n : Int} (h : Int.tdiv n 100 = 5) : 500 ≤ n ∧ n ≤ 599 := by
  have hn : 0 ≤ n := by
    by_contra hneg
    push_neg at hneg
    have h2 : 0 ≤ Int.tdiv (-n) 100 := Int.tdiv_nonneg (by omega) (by omega)
    rw [Int.neg_tdiv] at h2
    omega
  rw [Int.tdiv_eq_ediv hn (by omega)] at h
  omega

theorem firstDigit_of_range :
    ∀ m, m < 600 → 400 ≤ m → firstDigit m = if m < 500 then 4 else 5 := by decide

/-- A leading digit other than 4 and 5 rules out the 4xx and 5xx code ranges. -/
theorem firstDigit_excludes {n : Int} (h4 : firstDigit n.natAbs ≠ 4)
    (h5 : firstDigit n.natAbs ≠ 5) :
    Int.tdiv n 100 ≠ 4 ∧ Int.tdiv n 100 ≠ 5 := by
  constructor
  · intro hc
    obtain ⟨hl, hr⟩ := tdiv100_eq_four hc
    have hb := firstDigit_of_range n.natAbs (by omega) (by omega)
    rw [if_pos (by omega)] at hb
    exact h4 hb
  · intro hc
    obtain ⟨hl, hr⟩ := tdiv100_eq_five hc
    have hb := firstDigit_of_range n.natAbs (by omega) (by omega)
    rw [if_neg (by omega)] at hb
    exact h5 hb

/-! ## Claim theorems -/

/-- C1: when an rDNS lookup was attempted but the lazily-resolved value is
not a usable string, `requireMatchingRDNS` fails with enhanced code class 4
as the spec says, but its numeric code is the hard-coded 40 — not a
three-digit 450-class code (its leading "hundreds" digit is 0, not 4), so
by the `Code/100 = 4` convention the reply is not even classified as
transient, contradicting the claim and the code's own comment. -/
theorem c1_rdns_nonstring_code (srcHostname : String) :
    (requireMatchingRDNS (some .nonString) srcHostname).reasonCodeEnch
      = some (40, ⟨4, 7, 25⟩)
    ∧ Int.tdiv 40 100 ≠ 4 := by
  exact ⟨rfl, by decide⟩

/-- C3 counterexample: a policy with quarantine set applied to a passing
verdict (no reason) leaves quarantine false, because `Apply` returns a
passing verdict unchanged. -/
theorem c3_counterexample :
    ((FailAction.mk true false none).Apply { reason := none }).quarantine = false := rfl

/-- C3 amended: `Apply` never clears a flag the incoming verdict set, and
whenever the verdict carries a reason the merged flags are exactly the OR of
the verdict's and the policy's flags; but on a passing verdict (no reason)
the verdict is returned unchanged, so a policy flag alone does not force the
output flag. -/
theorem c3_apply_monotonic (p : FailAction) (v : CheckResult) :
    (v.quarantine = true → (p.Apply v).quarantine = true)
    ∧ (v.reject = true → (p.Apply v).reject = true)
    ∧ (v.reason ≠ none →
        (p.Apply v).quarantine = (p.quarantine || v.quarantine)
        ∧ (p.Apply v).reject = (p.reject || v.reject)) := by
  rcases v with ⟨reason, q, rj⟩
  cases reason with
  | none => simp [FailAction.Apply]
  | some r =>
    refine ⟨fun h => ?_, fun h => ?_, fun _ => ⟨rfl, rfl⟩⟩
    · show (p.quarantine || q) = true
      simp only [show q = true from h, Bool.or_true]
    · show (p.reject || rj) = true
      simp only [show rj = true from h, Bool.or_true]

theorem c3_witness :
    ((FailAction.mk true false none).Apply
        { reason := some (.dnsErr true "x"), quarantine := false, reject := true }).quarantine
      = true
    ∧ ((FailAction.mk true false none).Apply
        { reason := some (.dnsErr true "x"), quarantine := false, reject := true }).reject
      = true := by
  have h := c3_apply_monotonic (FailAction.mk true false none)
      { reason := some (.dnsErr true "x"), quarantine := false, reject := true }
  exact ⟨((h.2.2 (by simp)).1).trans rfl, h.2.1 rfl⟩

/-- C4: when the policy has a reason override and the verdict has a reason,
`Apply` produces a reason whose code, enhanced code and message come from the
override and whose direct cause is the original reason unchanged, so a single
unwrapping step of the cause chain recovers it (wrap, not replace). -/
theorem c4_override_wraps (p : FailAction) (v : CheckResult) (ov : SMTPErrorData) (r : MErr)
    (hov : p.reasonOverride = some ov) (hr : v.reason = some r) :
    (p.Apply v).reason
      = some (.smtp ⟨ov.code, ov.enhancedCode, ov.message, "", "", []⟩ (some r))
    ∧ ((p.Apply v).reason.bind MErr.cause) = some r := by
  have h1 : (p.Apply v).reason
      = some (.smtp ⟨ov.code, ov.enhancedCode, ov.message, "", "", []⟩ (some r)) := by
    unfold FailAction.Apply
    rw [hr, hov]
  exact ⟨h1, by rw [h1]; rfl⟩

theorem c4_witness :
    ((FailAction.mk false true (some ⟨554, ⟨5, 7, 0⟩, "rejected", "", "reject directive used", []⟩)).Apply
        { reason := some (.dnsErr false "no such host") }).reason
      = some (.smtp ⟨554, ⟨5, 7, 0⟩, "rejected", "", "", []⟩
          (some (.dnsErr false "no such host"))) := by
  have h := c4_override_wraps
      (FailAction.mk false true (some ⟨554, ⟨5, 7, 0⟩, "rejected", "", "reject directive used", []⟩))
      { reason := some (.dnsErr false "no such host") }
      ⟨554, ⟨5, 7, 0⟩, "rejected", "", "reject directive used", []⟩
      (.dnsErr false "no such host") rfl rfl
  exact h.1

/-- C9: every failing verdict of `requireMXRecord` is supposed to carry the
check name "require_mx_record", but the address-parse-failure branch wraps
the parse error with the field `check = "require_matching_rdns"` — the rDNS
validator's name — so that failing verdict does not identify the MX
validator. -/
theorem c9_parse_failure_wrong_check_name (res : Resolver) (ip : IPAddr) :
    (requireMXRecord res (.tcp ip) "nodomain").reason
      = some (.withFields [("check", "require_matching_rdns")]
          (.splitErr "malformed address"))
    ∧ ("require_matching_rdns" : String) ≠ "require_mx_record" := by
  exact ⟨rfl, by decide⟩

/-- C10: an action directive whose first argument is "ignore" parses
successfully to the all-false `FailAction` with no reason override, no
matter how many trailing arguments follow; they are silently ignored. -/
theorem c10_ignore_trailing_args (rest : List String) :
    ParseActionDirective ("ignore" :: rest) = .ok ⟨false, false, none⟩ := rfl

/-- C2: when the resolver errors, both the MX and the EHLO validator fail
with 420/{4,7,27} if the error is temporary and 501/{5,7,27} otherwise; for
a temporary error the code's leading digit is 4, never 5. -/
theorem c2_resolver_error_classification
    (res : Resolver) (ip : IPAddr) (mailFrom mbox domain ehlo : String) (e1 e2 : DNSError)
    (hmf : mailFrom ≠ "")
    (hsplit : addressSplit mailFrom = .ok (mbox, domain))
    (hdom : domain ≠ "")
    (hmx : res.lookupMX domain = .error e1)
    (hbr : (goStartsWith ehlo "[" && goEndsWith ehlo "]") = false)
    (hlook : res.lookupIPAddr ehlo = .error e2) :
    (requireMXRecord res (.tcp ip) mailFrom).reasonCodeEnch
      = some (if e1.temporary then ((420 : Int), (⟨4, 7, 27⟩ : EnhancedCode))
              else (501, ⟨5, 7, 27⟩))
    ∧ (requireMatchingEHLO res (.tcp ip) ehlo).reasonCodeEnch
      = some (if e2.temporary then ((420 : Int), (⟨4, 7, 27⟩ : EnhancedCode))
              else (501, ⟨5, 7, 27⟩))
    ∧ (e1.temporary = true →
        ∀ c ec, (requireMXRecord res (.tcp ip) mailFrom).reasonCodeEnch = some (c, ec) →
          Int.tdiv c 100 = 4)
    ∧ (e2.temporary = true →
        ∀ c ec, (requireMatchingEHLO res (.tcp ip) ehlo).reasonCodeEnch = some (c, ec) →
          Int.tdiv c 100 = 4) := by
  have hA : requireMXRecord res (.tcp ip) mailFrom
      = { reason := some (.smtp
            ⟨if e1.temporary then 420 else 501,
             if e1.temporary then ⟨4, 7, 27⟩ else ⟨5, 7, 27⟩,
             "DNS lookup failure during policy check", "require_mx_record", "",
             [("reason", e1.text)]⟩ (some (.dnsErr e1.temporary e1.text))) } := by
    unfold requireMXRecord
    rw [if_neg hmf, hsplit]
    show (if domain = "" then _ else _) = _
    rw [if_neg hdom, hmx]
  have hB : requireMatchingEHLO res (.tcp ip) ehlo
      = { reason := some (.smtp
            ⟨if e2.temporary then 420 else 501,
             if e2.temporary then ⟨4, 7, 27⟩ else ⟨5, 7, 27⟩,
             "DNS lookup failure during policy check", "require_matching_ehlo", "",
             [("reason", e2.text)]⟩ (some (.dnsErr e2.temporary e2.text))) } := by
    unfold requireMatchingEHLO
    show (if (goStartsWith ehlo "[" && goEndsWith ehlo "]") = true then _ else _) = _
    rw [hbr]
    show (match res.lookupIPAddr ehlo with
          | .error err => _
          | .ok srcIPs => _) = _
    rw [hlook]
  have hA' : (requireMXRecord res (.tcp ip) mailFrom).reasonCodeEnch
      = some (if e1.temporary then ((420 : Int), (⟨4, 7, 27⟩ : EnhancedCode))
              else (501, ⟨5, 7, 27⟩)) := by
    rw [hA]
    cases e1.temporary <;> rfl
  have hB' : (requireMatchingEHLO res (.tcp ip) ehlo).reasonCodeEnch
      = some (if e2.temporary then ((420 : Int), (⟨4, 7, 27⟩ : EnhancedCode))
              else (501, ⟨5, 7, 27⟩)) := by
    rw [hB]
    cases e2.temporary <;> rfl
  refine ⟨hA', hB', ?_, ?_⟩
  · intro ht c ec hc
    rw [hA', ht, if_pos rfl] at hc
    injection hc with hp
    injection hp with hc1 hc2
    subst hc1
    decide
  · intro ht c ec hc
    rw [hB', ht, if_pos rfl] at hc
    injection hc with hp
    injection hp with hc1 hc2
    subst hc1
    decide

/-- A resolver whose MX lookup fails with a temporary error and whose
address lookup fails with a permanent one. -/
def errResolver : Resolver :=
  ⟨fun _ => .error ⟨true, "i/o timeout"⟩, fun _ => .error ⟨false, "no such host"⟩⟩

theorem c2_witness :
    (requireMXRecord errResolver (.tcp [192, 0, 2, 1]) "user@example.org").reasonCodeEnch
      = some (420, ⟨4, 7, 27⟩)
    ∧ (requireMatchingEHLO errResolver (.tcp [192, 0, 2, 1]) "mail.example.org").reasonCodeEnch
      = some (501, ⟨5, 7, 27⟩) := by
  have h := c2_resolver_error_classification errResolver [192, 0, 2, 1]
      "user@example.org" "user" "example.org" "mail.example.org"
      ⟨true, "i/o timeout"⟩ ⟨false, "no such host"⟩
      (by decide) rfl (by decide) rfl rfl rfl
  exact ⟨h.1.trans rfl, h.2.1.trans rfl⟩

/-- C8: `requireMXRecord` passes on an empty envelope return-path whatever
the resolver and source address are (no lookup can influence the verdict),
and a lookup that succeeds with zero MX records yields a permanent failure
with code 501 and enhanced code {5,7,27}. -/
theorem c8_mx_empty_and_zero_records
    (res : Resolver) (ip : IPAddr) (mailFrom mbox domain : String)
    (hmf : mailFrom ≠ "")
    (hsplit : addressSplit mailFrom = .ok (mbox, domain))
    (hdom : domain ≠ "")
    (hmx : res.lookupMX domain = .ok []) :
    (∀ (res2 : Resolver) (sa2 : SrcAddr), requireMXRecord res2 sa2 "" = { reason := none })
    ∧ (requireMXRecord res (.tcp ip) mailFrom).reasonCodeEnch = some (501, ⟨5, 7, 27⟩)
    ∧ (requireMXRecord res (.tcp ip) mailFrom).reasonCheckName = some "require_mx_record" := by
  have hA : requireMXRecord res (.tcp ip) mailFrom
      = { reason := some (.smtp
            ⟨501, ⟨5, 7, 27⟩, "Domain in MAIL FROM has no MX records",
             "require_mx_record", "", []⟩ none) } := by
    unfold requireMXRecord
    rw [if_neg hmf, hsplit]
    show (if domain = "" then _ else _) = _
    rw [if_neg hdom, hmx]
    rfl
  refine ⟨fun res2 sa2 => rfl, ?_, ?_⟩
  · rw [hA]
    rfl
  · rw [hA]
    rfl

/-- A resolver that finds no MX records and no addresses. -/
def noMXResolver : Resolver := ⟨fun _ => .ok [], fun _ => .ok []⟩

theorem c8_witness :
    requireMXRecord noMXResolver (.tcp [192, 0, 2, 1]) "" = { reason := none }
    ∧ (requireMXRecord noMXResolver (.tcp [192, 0, 2, 1]) "user@example.org").reasonCodeEnch
      = some (501, ⟨5, 7, 27⟩) := by
  have h := c8_mx_empty_and_zero_records noMXResolver [192, 0, 2, 1]
      "user@example.org" "user" "example.org" (by decide) rfl (by decide) rfl
  exact ⟨h.1 noMXResolver (.tcp [192, 0, 2, 1]), h.2.1⟩

/-- C5 counterexample: with arguments ["200", "1.2"] the first argument's
integer value 200 has leading digit 2 (neither 4 nor 5), yet parsing fails
with the enhanced-code part-count error rather than the invalid-code error,
because the fallthrough cascade validates the later argument first. -/
theorem c5_counterexample :
    goAtoi "200" = some 200
    ∧ firstDigit ((200 : Int)).natAbs = 2
    ∧ ParseRejectDirective ["200", "1.2"] = .error .wrongEnhancedParts
    ∧ DirectiveError.wrongEnhancedParts ≠ DirectiveError.badCodeFirstDigit :=
  ⟨by decide, by decide, rfl, by decide⟩

/-- C5 amended: zero arguments succeed with code 554, enhanced code {5,7,0}
and the default message; more than three arguments fail with the
argument-count error; and an argument list of length 1–3 whose first
argument's integer value has a leading digit other than 4 and 5 fails —
with the invalid-code error provided the later arguments (validated first
by the cascade) pass their own checks. -/
theorem c5_reject_directive (a0 a1 a2 : String) (n : Int) (e : EnhancedCode)
    (h0 : goAtoi a0 = some n)
    (h4 : firstDigit n.natAbs ≠ 4) (h5 : firstDigit n.natAbs ≠ 5) :
    ParseRejectDirective []
      = .ok (rejectDirectiveResult 554 ⟨5, 7, 0⟩ "Message rejected due to a local policy")
    ∧ (∀ args : List String, 3 < args.length → ParseRejectDirective args = .error .argCount)
    ∧ ParseRejectDirective [a0] = .error .badCodeFirstDigit
    ∧ (parseEnhancedCode a1 = .ok e → (e.c0 = 4 ∨ e.c0 = 5) →
        ParseRejectDirective [a0, a1] = .error .badCodeFirstDigit)
    ∧ (parseEnhancedCode a1 = .ok e → (e.c0 = 4 ∨ e.c0 = 5) → a2 ≠ "" →
        ParseRejectDirective [a0, a1, a2] = .error .badCodeFirstDigit) := by
  have hcond : Int.tdiv n 100 ≠ 4 ∧ Int.tdiv n 100 ≠ 5 := firstDigit_excludes h4 h5
  have hcode : ∀ (ec : EnhancedCode) (msg : String) (args : List String),
      args.headD "" = a0 → rejectCaseCode args ec msg = .error .badCodeFirstDigit := by
    intro ec msg args hh
    simp only [rejectCaseCode, hh, h0]
    rw [if_pos hcond]
  have henh : ∀ (msg : String) (args : List String),
      args.headD "" = a0 → args.getD 1 "" = a1 →
      parseEnhancedCode a1 = .ok e → (e.c0 = 4 ∨ e.c0 = 5) →
      rejectCaseEnh args msg = .error .badCodeFirstDigit := by
    intro msg args hh hg hpe hec
    simp only [rejectCaseEnh, hg, hpe]
    have hne : ¬(e.c0 ≠ 4 ∧ e.c0 ≠ 5) := by
      intro hcontra
      rcases hec with hx | hx
      · exact hcontra.1 hx
      · exact hcontra.2 hx
    rw [if_neg hne]
    exact hcode e msg args hh
  refine ⟨rfl, ?_, ?_, ?_, ?_⟩
  · intro args hlen
    match args with
    | x0 :: x1 :: x2 :: x3 :: rest => rfl
    | [] => simp at hlen
    | [x0] => simp at hlen
    | [x0, x1] => simp at hlen
    | [x0, x1, x2] => simp at hlen
  · exact hcode ⟨5, 7, 0⟩ "Message rejected due to a local policy" [a0] rfl
  · intro hpe hec
    exact henh "Message rejected due to a local policy" [a0, a1] rfl rfl hpe hec
  · intro hpe hec ha2
    show (if ([a0, a1, a2].getD 2 "") = "" then _ else _) = _
    rw [if_neg (show ¬([a0, a1, a2].getD 2 "") = "" from ha2)]
    exact henh a2 [a0, a1, a2] rfl rfl hpe hec

theorem c5_witness :
    ParseRejectDirective ["200"] = .error .badCodeFirstDigit
    ∧ ParseRejectDirective ["200", "5.7.0", "no thanks"] = .error .badCodeFirstDigit
    ∧ ParseRejectDirective ["1", "2", "3", "4"] = .error .argCount := by
  have h := c5_reject_directive "200" "5.7.0" "no thanks" 200 ⟨5, 7, 0⟩
      (by decide) (by decide) (by decide)
  exact ⟨h.2.2.1, h.2.2.2.2 rfl (.inr rfl) (by decide),
    h.2.1 ["1", "2", "3", "4"] (by decide)⟩

/-- A successful `rejectCaseCode` validated the code's leading hundreds
digit and passed the enhanced code through unchanged. -/
theorem rejectCaseCode_ok {args : List String} {ec : EnhancedCode} {msg : String}
    {r : SMTPErrorData} (h : rejectCaseCode args ec msg = .ok r) :
    (Int.tdiv r.code 100 = 4 ∨ Int.tdiv r.code 100 = 5) ∧ r.enhancedCode = ec := by
  unfold rejectCaseCode at h
  split at h
  · exact Except.noConfusion h
  next code hg =>
    split at h
    · exact Except.noConfusion h
    next hc =>
      injection h with h'
      subst h'
      refine ⟨?_, rfl⟩
      rcases not_and_or.mp hc with hx | hx
      · exact .inl (not_ne_iff.mp hx)
      · exact .inr (not_ne_iff.mp hx)

/-- A successful `rejectCaseEnh` validated both the enhanced code's class
digit and (through the fallthrough) the code's leading digit. -/
theorem rejectCaseEnh_ok {args : List String} {msg : String} {r : SMTPErrorData}
    (h : rejectCaseEnh args msg = .ok r) :
    (Int.tdiv r.code 100 = 4 ∨ Int.tdiv r.code 100 = 5)
    ∧ (r.enhancedCode.c0 = 4 ∨ r.enhancedCode.c0 = 5) := by
  unfold rejectCaseEnh at h
  split at h
  · exact Except.noConfusion h
  next ec hpe =>
    split at h
    · exact Except.noConfusion h
    next hc =>
      obtain ⟨hd, hee⟩ := rejectCaseCode_ok h
      refine ⟨hd, ?_⟩
      rw [hee]
      rcases not_and_or.mp hc with hx | hx
      · exact .inl (not_ne_iff.mp hx)
      · exact .inr (not_ne_iff.mp hx)

/-- C6 counterexample: ["450"] parses successfully to code 450 with the
default enhanced code {5,7,0}: the code's leading digit is 4 while the
enhanced class is 5, so the parser does not validate their consistency. -/
theorem c6_counterexample :
    ParseRejectDirective ["450"]
      = .ok (rejectDirectiveResult 450 ⟨5, 7, 0⟩ "Message rejected due to a local policy")
    ∧ Int.tdiv (450 : Int) 100 = 4
    ∧ (rejectDirectiveResult 450 ⟨5, 7, 0⟩
        "Message rejected due to a local policy").enhancedCode.c0 = 5
    ∧ (4 : Int) ≠ 5 :=
  ⟨rfl, by decide, rfl, by decide⟩

/-- C6 amended: every successful parse yields a numeric code whose leading
hundreds digit is 4 or 5 and an enhanced code whose class is 4 or 5 — each
validated separately when supplied — but the two digits need not agree. -/
theorem c6_success_digit_ranges (args : List String) (r : SMTPErrorData)
    (h : ParseRejectDirective args = .ok r) :
    (Int.tdiv r.code 100 = 4 ∨ Int.tdiv r.code 100 = 5)
    ∧ (r.enhancedCode.c0 = 4 ∨ r.enhancedCode.c0 = 5) := by
  match args with
  | [] =>
    injection h with h'
    subst h'
    exact ⟨.inr (by decide), .inr (by decide)⟩
  | [a0] =>
    obtain ⟨hd, hee⟩ := rejectCaseCode_ok h
    exact ⟨hd, by rw [hee]; exact .inr rfl⟩
  | [a0, a1] => exact rejectCaseEnh_ok h
  | [a0, a1, a2] =>
    have h3 : (if ([a0, a1, a2].getD 2 "") = "" then (.error .emptyMessage)
        else rejectCaseEnh [a0, a1, a2] ([a0, a1, a2].getD 2 "")) = .ok r := h
    split at h3
    · exact Except.noConfusion h3
    · exact rejectCaseEnh_ok h3
  | x0 :: x1 :: x2 :: x3 :: rest => exact Except.noConfusion h

theorem c6_witness :
    (Int.tdiv (rejectDirectiveResult 554 ⟨5, 7, 0⟩
        "Message rejected due to a local policy").code 100 = 4
      ∨ Int.tdiv (rejectDirectiveResult 554 ⟨5, 7, 0⟩
          "Message rejected due to a local policy").code 100 = 5)
    ∧ ((rejectDirectiveResult 554 ⟨5, 7, 0⟩
          "Message rejected due to a local policy").enhancedCode.c0 = 4
      ∨ (rejectDirectiveResult 554 ⟨5, 7, 0⟩
          "Message rejected due to a local policy").enhancedCode.c0 = 5) :=
  c6_success_digit_ranges []
    (rejectDirectiveResult 554 ⟨5, 7, 0⟩ "Message rejected due to a local policy") rfl

/-- C7 counterexample: "5.7.-1" has a negative third part, yet
`parseEnhancedCode` succeeds and returns {5,7,-1}, because `Atoi` accepts a
sign: non-negativity is not enforced. -/
theorem c7_counterexample :
    parseEnhancedCode "5.7.-1" = .ok ⟨5, 7, -1⟩ ∧ (-1 : Int) < 0 :=
  ⟨rfl, by decide⟩

/-- C7 amended: `parseEnhancedCode` succeeds exactly when the string splits
on "." into exactly three parts and each part parses under `Atoi` as an
integer — possibly negative — in which case it returns the triple; a wrong
part count fails with the part-count error and a non-integer part fails
with that part's `Atoi` error. -/
theorem c7_enhanced_code_spec (s p0 p1 p2 : String) (n0 n1 n2 : Int)
    (hs : goSplit s '.' = [p0, p1, p2]) :
    (goAtoi p0 = some n0 → goAtoi p1 = some n1 → goAtoi p2 = some n2 →
      parseEnhancedCode s = .ok ⟨n0, n1, n2⟩)
    ∧ (∀ t : String, (goSplit t '.').length ≠ 3 →
        parseEnhancedCode t = .error .wrongEnhancedParts)
    ∧ ((goAtoi p0 = none ∨ goAtoi p1 = none ∨ goAtoi p2 = none) →
        ∃ p, parseEnhancedCode s = .error (.atoiError p)) := by
  refine ⟨?_, ?_, ?_⟩
  · intro h0 h1 h2
    simp only [parseEnhancedCode, hs, h0, h1, h2]
  · intro t ht
    unfold parseEnhancedCode
    rcases hgl : goSplit t '.' with _ | ⟨x0, _ | ⟨x1, _ | ⟨x2, _ | ⟨x3, tl⟩⟩⟩⟩ <;>
      first | rfl | (rw [hgl] at ht; simp at ht)
  · intro hn
    rcases h0 : goAtoi p0 with _ | m0
    · exact ⟨p0, by simp only [parseEnhancedCode, hs, h0]⟩
    · rcases h1 : goAtoi p1 with _ | m1
      · exact ⟨p1, by simp only [parseEnhancedCode, hs, h0, h1]⟩
      · rcases h2 : goAtoi p2 with _ | m2
        · exact ⟨p2, by simp only [parseEnhancedCode, hs, h0, h1, h2]⟩
        · exfalso
          rcases hn with hx | hx | hx
          · rw [h0] at hx; exact Option.noConfusion hx
          · rw [h1] at hx; exact Option.noConfusion hx
          · rw [h2] at hx; exact Option.noConfusion hx

theorem c7_witness : parseEnhancedCode "5.7.1" = .ok ⟨5, 7, 1⟩ :=
  (c7_enhanced_code_spec "5.7.1" "5" "7" "1" 5 7 1 rfl).1 rfl rfl rfl

end Maddy
